import Mathlib

/-!
Verification development for the sideloadable-app catalog page script.
The repository's single source file `src/script.js` contains two revisions
of the same browser script, separated by a document marker: revision 1
(lines 1-351) and revision 2 (lines 352-729).  Definitions below carry a
`_v1` / `_v2` suffix naming the revision they embed; shared helpers model
JavaScript string/number primitives used by both revisions.
-/

namespace SideloadCatalog

/-! ## JavaScript string primitives

Strings are modelled by Lean `String` (a list of Unicode scalar values);
the JS operations used by the script are re-implemented structurally over
`String.data` so that every definition is executable and kernel-reducible.
-/

/-- Model of `String.prototype.toLowerCase` (per-character simple lowercase;
the script only feeds it feed text and search queries). -/
def jsToLower (s : String) : String :=
  ⟨s.data.map Char.toLower⟩

/-- Model of `String.prototype.trim`: drop leading and trailing whitespace. -/
def jsTrim (s : String) : String :=
  ⟨((s.data.dropWhile Char.isWhitespace).reverse.dropWhile Char.isWhitespace).reverse⟩

/-- Model of `String.prototype.trimStart`: drop leading whitespace. -/
def jsTrimStart (s : String) : String :=
  ⟨s.data.dropWhile Char.isWhitespace⟩

/-- `occursIn pat l` is true iff `pat` occurs as a contiguous run inside `l`;
this is the semantics of `String.prototype.includes` over scalar values. -/
def occursIn (pat : List Char) : List Char → Bool
  | [] => pat.isEmpty
  | c :: rest => pat.isPrefixOf (c :: rest) || occursIn pat rest

/-- Model of `s.includes(sub)`. -/
def jsIncludes (s sub : String) : Bool :=
  occursIn sub.data s.data

/-- Model of `s.startsWith(pat)`. -/
def jsStartsWith (s pat : String) : Bool :=
  pat.data.isPrefixOf s.data

/-! ## `encodeURIComponent` -/

/-- Characters `encodeURIComponent` leaves unescaped:
ASCII alphanumerics and `- _ . ! ~ * ' ( )` (the apostrophe is written via
its code point 39). -/
def isUnescapedURIChar (c : Char) : Bool :=
  (c.isAlpha && c.toNat < 128) || c.isDigit ||
    c ∈ ['-', '_', '.', '!', '~', '*', Char.ofNat 39, '(', ')']

/-- UTF-8 bytes of one Unicode scalar value. -/
def utf8Bytes (c : Char) : List Nat :=
  let n := c.toNat
  if n < 0x80 then [n]
  else if n < 0x800 then
    [0xC0 ||| (n >>> 6), 0x80 ||| (n &&& 0x3F)]
  else if n < 0x10000 then
    [0xE0 ||| (n >>> 12), 0x80 ||| ((n >>> 6) &&& 0x3F), 0x80 ||| (n &&& 0x3F)]
  else
    [0xF0 ||| (n >>> 18), 0x80 ||| ((n >>> 12) &&& 0x3F),
     0x80 ||| ((n >>> 6) &&& 0x3F), 0x80 ||| (n &&& 0x3F)]

/-- Uppercase hexadecimal digit for a value below 16. -/
def hexDigitChar (n : Nat) : Char :=
  if n < 10 then Char.ofNat (48 + n) else Char.ofNat (55 + n)

/-- Percent-escape of a single byte, e.g. byte 47 becomes `%2F`. -/
def percentEscapeByte (b : Nat) : List Char :=
  ['%', hexDigitChar (b / 16), hexDigitChar (b % 16)]

/-- Encoding of one character under `encodeURIComponent`. -/
def encodeURIComponentChar (c : Char) : List Char :=
  if isUnescapedURIChar c then [c] else (utf8Bytes c).flatMap percentEscapeByte

/-- Model of the global `encodeURIComponent`. -/
def encodeURIComponent (s : String) : String :=
  ⟨s.data.flatMap encodeURIComponentChar⟩

/-! ## Data model (section 3 of the spec)

Fields the script reads are modelled; optional JSON fields are `Option`s.
`appPermissions` and `news` are never touched by either revision of the
script and are omitted.
-/

structure VersionRecord where
  version : String
  date : String
  size : Nat
  downloadURL : Option String := none
  localizedDescription : Option String := none
  minOSVersion : Option String := none
deriving DecidableEq, Inhabited, Repr

structure AppRecord where
  bundleIdentifier : String
  name : String
  developerName : String
  subtitle : Option String := none
  localizedDescription : Option String := none
  iconURL : Option String := none
  tintColor : Option String := none
  screenshotURLs : List String := []
  versions : List VersionRecord := []
deriving DecidableEq, Inhabited, Repr

structure Feed where
  name : Option String := none
  description : Option String := none
  subtitle : Option String := none
  apps : List AppRecord
deriving DecidableEq, Inhabited, Repr

/-! ## `formatBytes`

The source computes `i = Math.floor(Math.log(bytes) / Math.log(1024))` and
renders `parseFloat((bytes / Math.pow(1024, i)).toFixed(1)) + ' ' + sizes[i]`.
Embedding choices, each matching the exact value semantics of the source for
integer byte counts below 2^53:
* the floating-point logarithm quotient floor is modelled as the exact
  integer logarithm `log1024` (`1024^i ≤ n < 1024^(i+1)`);
* `bytes / Math.pow(1024, i)` is division by a power of two, which is exact
  in binary floating point, so `toFixed(1)` (ECMAScript: nearest multiple of
  1/10, ties away from zero toward the larger value) is modelled by exact
  rational rounding `(20*n + d) / (2*d)` tenths;
* `parseFloat` of the fixed string followed by number-to-string conversion
  drops a trailing `.0`, modelled by `jsNumToString`;
* an index past the end of `sizes` yields `undefined`, which string
  concatenation renders as `"undefined"`, modelled by `List.getD`.
-/

/-- Fuel-indexed integer logarithm base 1024 (fuel `n` always suffices). -/
def log1024Aux : Nat → Nat → Nat
  | 0, _ => 0
  | fuel + 1, n => if n < 1024 then 0 else 1 + log1024Aux fuel (n / 1024)

/-- Integer logarithm base 1024: `Math.floor(Math.log n / Math.log 1024)`. -/
def log1024 (n : Nat) : Nat :=
  log1024Aux n n

/-- Render a number of tenths the way `parseFloat((x).toFixed(1))` then
string concatenation does: one decimal digit, with a trailing `.0` dropped. -/
def jsNumToString (tenths : Nat) : String :=
  if tenths % 10 = 0 then toString (tenths / 10)
  else toString (tenths / 10) ++ "." ++ toString (tenths % 10)

/-- `formatBytes` of revision 1 (src/script.js lines 63-68). -/
def formatBytes_v1 (bytes : Nat) : String :=
  if bytes = 0 then "0 B"
  else
    let sizes : List String := ["B", "KB", "MB", "GB"]
    let i := log1024 bytes
    let d := 1024 ^ i
    jsNumToString ((20 * bytes + d) / (2 * d)) ++ " " ++ sizes.getD i "undefined"

/-- `formatBytes` of revision 2 (src/script.js lines 421-426); the source
text of the two revisions is identical. -/
def formatBytes_v2 (bytes : Nat) : String :=
  if bytes = 0 then "0 B"
  else
    let sizes : List String := ["B", "KB", "MB", "GB"]
    let i := log1024 bytes
    let d := 1024 ^ i
    jsNumToString ((20 * bytes + d) / (2 * d)) ++ " " ++ sizes.getD i "undefined"

/-! ## `formatDate`

`new Date(s)` never throws in JavaScript: unparseable input yields an
Invalid Date object, and `toLocaleDateString` stringifies an Invalid Date
as `"Invalid Date"` (it does not throw either).  The `try { ... } catch {
return dateStr }` in the source therefore has an unreachable catch branch;
the embedding makes this explicit by running the body in `Except` with an
uninhabited error path.
-/

/-- A successfully parsed calendar date. -/
structure SimpleDate where
  year : Nat
  month : Nat
  day : Nat
deriving DecidableEq, Inhabited, Repr

/-- Split a character list at every `-`. -/
def splitOnDash : List Char → List (List Char)
  | [] => [[]]
  | c :: rest =>
    let r := splitOnDash rest
    if c = '-' then [] :: r
    else
      match r with
      | [] => [[c]]
      | g :: gs => (c :: g) :: gs

/-- Numeric value of a nonempty all-digit character list. -/
def digitsToNat? (l : List Char) : Option Nat :=
  if l.isEmpty then none
  else if l.all Char.isDigit then
    some (l.foldl (fun acc c => acc * 10 + (c.toNat - 48)) 0)
  else none

/-- Modelled from the browser environment: `new Date(s)` restricted to the
feed's ISO `YYYY-MM-DD` shape; every other input is an invalid date
(`none`).  `new Date` never throws, which is the fact the claims depend on. -/
def jsParseDate (s : String) : Option SimpleDate :=
  match splitOnDash s.data with
  | [y, m, d] =>
    match digitsToNat? y, digitsToNat? m, digitsToNat? d with
    | some yn, some mn, some dn =>
      if 1 ≤ mn && mn ≤ 12 && 1 ≤ dn && dn ≤ 31 then some ⟨yn, mn, dn⟩
      else none
    | _, _, _ => none
  | _ => none

/-- English month abbreviations used by `toLocaleDateString('en-US',
{ month: 'short' })`. -/
def monthAbbrev : Nat → String
  | 1 => "Jan" | 2 => "Feb" | 3 => "Mar" | 4 => "Apr"
  | 5 => "May" | 6 => "Jun" | 7 => "Jul" | 8 => "Aug"
  | 9 => "Sep" | 10 => "Oct" | 11 => "Nov" | 12 => "Dec"
  | _ => ""

/-- Model of `date.toLocaleDateString('en-US', { year: 'numeric', month:
'short', day: 'numeric' })`; an Invalid Date renders as `"Invalid Date"`. -/
def toLocaleDateString_enUS : Option SimpleDate → String
  | none => "Invalid Date"
  | some d => monthAbbrev d.month ++ " " ++ toString d.day ++ ", " ++ toString d.year

/-- `formatDate` of revision 1 (src/script.js lines 70-81).  The `try`
body never throws, so the `catch { return dateStr }` branch is dead code. -/
def formatDate_v1 (dateStr : String) : String :=
  match (Except.ok (toLocaleDateString_enUS (jsParseDate dateStr)) : Except Unit String) with
  | .ok rendered => rendered
  | .error _ => dateStr

/-- `formatDate` of revision 2 (src/script.js lines 428-439); source text
identical to revision 1. -/
def formatDate_v2 (dateStr : String) : String :=
  match (Except.ok (toLocaleDateString_enUS (jsParseDate dateStr)) : Except Unit String) with
  | .ok rendered => rendered
  | .error _ => dateStr

/-! ## Sideloading deep links (`getSideloadLinks`) -/

/-- Entry shape of revision 1's table (icon is an emoji string). -/
structure SideloadLinkV1 where
  name : String
  url : String
  icon : String
  className : String
deriving DecidableEq, Inhabited, Repr

/-- Entry shape of revision 2's table (logo is an image path). -/
structure SideloadLinkV2 where
  name : String
  url : String
  logo : String
  className : String
deriving DecidableEq, Inhabited, Repr

/-- `getSideloadLinks` of revision 1 (src/script.js lines 14-60). -/
def getSideloadLinks_v1 (sourceURL : String) : List SideloadLinkV1 :=
  let encoded := encodeURIComponent sourceURL
  [ ⟨"AltStore", "altstore://source?url=" ++ encoded, "🔷", "altstore"⟩,
    ⟨"SideStore", "sidestore://source?url=" ++ encoded, "🟣", "sidestore"⟩,
    ⟨"Feather", "feather://source/" ++ sourceURL, "🪶", "feather"⟩,
    ⟨"TrollApps", "apple-magnifier://install?url=" ++ encoded, "🧌", "trollapps"⟩,
    ⟨"ESign", "esign://addsource?url=" ++ encoded, "✍️", "esign"⟩,
    ⟨"GBox", "gbox://import/" ++ sourceURL, "📦", "gbox"⟩,
    ⟨"Scarlet", "scarlet://repo/" ++ sourceURL, "🔴", "scarlet"⟩ ]

/-- `getSideloadLinks` of revision 2 (src/script.js lines 396-418). -/
def getSideloadLinks_v2 (sourceURL : String) : List SideloadLinkV2 :=
  let encoded := encodeURIComponent sourceURL
  [ ⟨"AltStore", "altstore://source?url=" ++ encoded, "img/altstore.png", "altstore"⟩,
    ⟨"SideStore", "sidestore://source?url=" ++ encoded, "img/sidestore.png", "sidestore"⟩,
    ⟨"Feather", "feather://source/" ++ sourceURL, "img/feather.png", "feather"⟩ ]

/-- Following the spec's words: how an installer template embeds the feed
URL — "either percent-encoded as a query parameter or as a raw path
segment". -/
inductive EncStyle where
  | encodedQuery
  | rawPath
deriving DecidableEq, Repr

/-- Following the spec's words: a fixed per-installer template (scheme name
and encoding style); `uriBase` is the fixed scheme-and-path part before the
embedded feed URL. -/
structure InstallerTemplate where
  installer : String
  uriBase : String
  style : EncStyle
deriving DecidableEq, Repr

/-- Applying a template to a feed URL, per the spec's words. -/
def applyTemplate (sourceURL : String) (t : InstallerTemplate) : String × String :=
  ( t.installer,
    t.uriBase ++ match t.style with
      | .encodedQuery => encodeURIComponent sourceURL
      | .rawPath => sourceURL )

/-- Revision 1's installer templates, read off the source's fixed table. -/
def installerTemplates_v1 : List InstallerTemplate :=
  [ ⟨"AltStore", "altstore://source?url=", .encodedQuery⟩,
    ⟨"SideStore", "sidestore://source?url=", .encodedQuery⟩,
    ⟨"Feather", "feather://source/", .rawPath⟩,
    ⟨"TrollApps", "apple-magnifier://install?url=", .encodedQuery⟩,
    ⟨"ESign", "esign://addsource?url=", .encodedQuery⟩,
    ⟨"GBox", "gbox://import/", .rawPath⟩,
    ⟨"Scarlet", "scarlet://repo/", .rawPath⟩ ]

/-- Revision 2's installer templates, read off the source's fixed table. -/
def installerTemplates_v2 : List InstallerTemplate :=
  [ ⟨"AltStore", "altstore://source?url=", .encodedQuery⟩,
    ⟨"SideStore", "sidestore://source?url=", .encodedQuery⟩,
    ⟨"Feather", "feather://source/", .rawPath⟩ ]

/-! ## Search (`handleSearch`)

`handleSearch` filters `sourceData.apps` and hands the result to
`renderApps`; the embedding returns the list passed to `renderApps`
(`none` when the function returns without rendering, i.e. when no feed is
loaded).  The `!sourceData.apps` truthiness guard of the source can only
fire when the `apps` field is absent; the feed data model (spec section 3)
makes `apps` required, so the guard is subsumed by `sourceData` being
loaded.  An empty `apps` array is truthy in JS and passes the guard.
-/

/-- The filter predicate of both revisions (source text identical):
`app.name.toLowerCase().includes(q) || app.developerName.toLowerCase().includes(q)
|| (app.subtitle && ...) || (app.localizedDescription && ...)`.
JS truthiness of a string is "nonempty", hence the explicit `!= ""` guards
on the optional fields. -/
def appMatchesQuery (q : String) (app : AppRecord) : Bool :=
  jsIncludes (jsToLower app.name) q ||
  jsIncludes (jsToLower app.developerName) q ||
  (match app.subtitle with
   | some s => !(s == "") && jsIncludes (jsToLower s) q
   | none => false) ||
  (match app.localizedDescription with
   | some d => !(d == "") && jsIncludes (jsToLower d) q
   | none => false)

/-- `handleSearch` of revision 1 (src/script.js lines 276-292). -/
def handleSearch_v1 (sourceData : Option Feed) (query : String) : Option (List AppRecord) :=
  match sourceData with
  | none => none
  | some feed =>
    let q := jsTrim (jsToLower query)
    if q = "" then some feed.apps
    else some (feed.apps.filter (appMatchesQuery q))

/-- `handleSearch` of revision 2 (src/script.js lines 637-653); source text
identical to revision 1. -/
def handleSearch_v2 (sourceData : Option Feed) (query : String) : Option (List AppRecord) :=
  match sourceData with
  | none => none
  | some feed =>
    let q := jsTrim (jsToLower query)
    if q = "" then some feed.apps
    else some (feed.apps.filter (appMatchesQuery q))

/-- Following the claim's words: the lowercased, trimmed query is a
substring of at least one of `name`, `developerName`, `subtitle`,
`localizedDescription`, comparing case-insensitively (absent optional
fields are simply not candidates). -/
def specQueryMatch (query : String) (app : AppRecord) : Bool :=
  let nq := jsTrim (jsToLower query)
  jsIncludes (jsToLower app.name) nq ||
  jsIncludes (jsToLower app.developerName) nq ||
  (match app.subtitle with
   | some s => jsIncludes (jsToLower s) nq
   | none => false) ||
  (match app.localizedDescription with
   | some d => jsIncludes (jsToLower d) nq
   | none => false)

/-! ## Rendering projections (revision 2)

The script renders by string templating into the DOM; following the spec's
design note (section 9), each render is embedded as a pure
record-to-view-model projection carrying exactly the data the template
interpolates.
-/

/-- JS truthiness filter on an optional string: `undefined` and `""` are
falsy. -/
def jsTruthyOpt : Option String → Option String
  | some s => if s = "" then none else some s
  | none => none

/-- View model of one app card (revision 2's `renderAppCard`,
src/script.js lines 465-496). -/
structure CardView where
  nameText : String
  developerText : String
  versionBadge : Option String
  subtitleText : String
  sizeText : String
  dateText : String
deriving DecidableEq, Inhabited, Repr

/-- The card subtitle: `app.subtitle || app.localizedDescription?.substring(0, 100) || ''`. -/
def cardSubtitle (app : AppRecord) : String :=
  let fallback :=
    match app.localizedDescription with
    | some d => ⟨d.data.take 100⟩
    | none => ""
  match app.subtitle with
  | some s => if s = "" then fallback else s
  | none => fallback

/-- Revision 2's `renderAppCard` as a projection.  `latestVersion` is
`app.versions[0]`; the version badge is rendered only when the version
string is truthy; the date is formatted only when `latestVersion.date` is
truthy. -/
def renderAppCard_v2 (app : AppRecord) : CardView :=
  let latestVersion := app.versions.head?
  let size := match latestVersion with
    | some v => formatBytes_v2 v.size
    | none => ""
  let version := match latestVersion with
    | some v => v.version
    | none => ""
  let date := match latestVersion with
    | some v => if v.date = "" then "" else formatDate_v2 v.date
    | none => ""
  { nameText := app.name
    developerText := app.developerName
    versionBadge := if version = "" then none else some ("v" ++ version)
    subtitleText := cardSubtitle app
    sizeText := size
    dateText := date }

/-- View model of one rendered version item in the detail modal
(revision 2's `openAppDetail`, src/script.js lines 578-590). -/
structure VersionItemView where
  versionLabel : String
  dateText : String
  changelog : Option String
  sizeText : String
  minOS : Option String
deriving DecidableEq, Inhabited, Repr

/-- The item built for `app.versions.map((v, i) => ...)` at index `i`:
`v${v.version}${i === 0 ? ' (Latest)' : ''}` plus formatted date, optional
changelog, formatted size, optional minimum OS. -/
def versionItemAt (i : Nat) (v : VersionRecord) : VersionItemView :=
  { versionLabel := "v" ++ v.version ++ (if i = 0 then " (Latest)" else "")
    dateText := formatDate_v2 v.date
    changelog := jsTruthyOpt v.localizedDescription
    sizeText := formatBytes_v2 v.size
    minOS := jsTruthyOpt v.minOSVersion }

/-- `versions.map((v, i) => ...)` starting at index `i`. -/
def versionItemsFrom (i : Nat) : List VersionRecord → List VersionItemView
  | [] => []
  | v :: rest => versionItemAt i v :: versionItemsFrom (i + 1) rest

/-- View model of the detail modal (revision 2's `openAppDetail`,
src/script.js lines 525-605). -/
structure DetailView where
  appName : String
  developerText : String
  headerVersionText : String
  description : String
  screenshots : List String
  versionItems : List VersionItemView
  downloadHref : Option String
deriving DecidableEq, Inhabited, Repr

/-- The detail-view projection of revision 2's `openAppDetail` body.  When
`app.versions` is empty the source leaves the versions container's previous
markup untouched; the projection uses the empty item list for that case
(`versionItemsFrom 0 [] = []`). -/
def mkDetailView (app : AppRecord) : DetailView :=
  let latestVersion := app.versions.head?
  { appName := app.name
    developerText := app.developerName
    headerVersionText := match latestVersion with
      | some v => "Version " ++ v.version ++ " • " ++ formatBytes_v2 v.size
      | none => ""
    description := (app.localizedDescription).getD ""
    screenshots := app.screenshotURLs
    versionItems := versionItemsFrom 0 app.versions
    downloadHref := match latestVersion with
      | some v => jsTruthyOpt v.downloadURL
      | none => none }

/-! ## Modal state and `openAppDetail` control flow -/

/-- The bits of page state `openAppDetail` can change: the modal overlay
(`active` class plus its content) and `document.body.style.overflow`. -/
structure UIState where
  modalActive : Bool
  modalContent : Option DetailView
  bodyOverflowHidden : Bool
deriving DecidableEq, Inhabited, Repr

/-- Revision 2's `openAppDetail` (src/script.js lines 525-605) as a state
transition: an early `return` fires when no feed is loaded or when no app
has the requested bundle identifier, leaving the state untouched;
otherwise the modal is filled and shown. -/
def openAppDetail_v2 (sourceData : Option Feed) (bundleId : String) (st : UIState) : UIState :=
  match sourceData with
  | none => st
  | some feed =>
    match feed.apps.find? (fun a => a.bundleIdentifier == bundleId) with
    | none => st
    | some app =>
      { modalActive := true
        modalContent := some (mkDetailView app)
        bodyOverflowHidden := true }

/-! ## Feed loader (revision 2's `init` fetch block, src/script.js lines 691-703) -/

/-- The part of a fetch `Response` the loader consults. -/
structure FeedResponse where
  ok : Bool
  status : Nat
  body : String
deriving DecidableEq, Inhabited, Repr

/-- Loader failures: non-success HTTP status, an HTML fallback page served
where the feed should be, or a JSON parse failure. -/
inductive LoadError where
  | httpError (status : Nat)
  | htmlFallback
  | jsonParse
deriving DecidableEq, Repr

/-- The source's HTML sniff:
`text.trimStart().startsWith('<!') || text.trimStart().startsWith('<html')`. -/
def looksLikeHTML (text : String) : Bool :=
  jsStartsWith (jsTrimStart text) "<!" || jsStartsWith (jsTrimStart text) "<html"

/-- Revision 2's fetch-and-validate sequence.  `JSON.parse` is not part of
this source file (it is a host builtin), so it is passed in as a parameter
`parseJSON`; the HTML sniff runs before it is ever consulted. -/
def loadFeed (resp : FeedResponse) (parseJSON : String → Option Feed) : Except LoadError Feed :=
  if !resp.ok then .error (.httpError resp.status)
  else if looksLikeHTML resp.body then .error .htmlFallback
  else
    match parseJSON resp.body with
    | some feed => .ok feed
    | none => .error .jsonParse

/-! ## Sample data for witnesses and counterexamples -/

/-- A concrete version record. -/
def mkSampleVersion (n : Nat) : VersionRecord :=
  { version := "1." ++ toString n
    date := "2024-01-0" ++ toString (n + 1)
    size := 1536
    downloadURL := some ("https://example.com/app-1." ++ toString n ++ ".ipa")
    localizedDescription := some "Bug fixes"
    minOSVersion := some "14.0" }

/-- A concrete app carrying seven versions. -/
def sampleApp7 : AppRecord :=
  { bundleIdentifier := "com.example.seven"
    name := "Seven"
    developerName := "Example Dev"
    subtitle := some "Counts to seven"
    localizedDescription := some "An app with seven versions."
    versions := [mkSampleVersion 6, mkSampleVersion 5, mkSampleVersion 4,
                 mkSampleVersion 3, mkSampleVersion 2, mkSampleVersion 1,
                 mkSampleVersion 0] }

/-- A concrete app carrying two versions. -/
def sampleApp2 : AppRecord :=
  { bundleIdentifier := "com.example.two"
    name := "Two"
    developerName := "Example Dev"
    versions := [mkSampleVersion 1, mkSampleVersion 0] }

/-- A concrete loaded feed. -/
def sampleFeed : Feed :=
  { name := some "Sample Source"
    apps := [sampleApp7, sampleApp2] }

/-- The power of 1024 at the magnitude index `formatBytes` selects. -/
def byteMagnitude (n : Nat) : Nat :=
  1024 ^ log1024 n

/-- The tenths value `formatBytes` renders: `(n / 1024^i).toFixed(1)` as an
exact count of tenths, rounding ties up. -/
def byteTenths (n : Nat) : Nat :=
  (20 * n + byteMagnitude n) / (2 * byteMagnitude n)

/-! ## Helper lemmas -/

theorem occursIn_nil_pat (l : List Char) : occursIn [] l = true := by
  cases l <;> simp [occursIn, List.isPrefixOf]

theorem jsIncludes_empty_sub (s : String) : jsIncludes s "" = true := by
  simpa [jsIncludes] using occursIn_nil_pat s.data

theorem eq_empty_of_data_eq_nil {s : String} (h : s.data = []) : s = "" := by
  cases s
  simp_all [String.ext_iff]

theorem jsIncludes_empty_string {q : String} (h : q ≠ "") :
    jsIncludes "" q = false := by
  have hd : q.data ≠ [] := fun hnil => h (eq_empty_of_data_eq_nil hnil)
  simp [jsIncludes, occursIn, List.isEmpty_iff, hd]

theorem jsToLower_empty : jsToLower "" = "" := rfl

theorem appMatchesQuery_eq_spec (query : String) (app : AppRecord)
    (h : jsTrim (jsToLower query) ≠ "") :
    appMatchesQuery (jsTrim (jsToLower query)) app = specQueryMatch query app := by
  unfold appMatchesQuery specQueryMatch
  congr 1
  congr 1
  · cases hs : app.subtitle with
    | none => rfl
    | some s =>
      by_cases hse : s = ""
      · subst hse
        simp [jsToLower_empty, jsIncludes_empty_string h]
      · simp [hse]
  · cases hd : app.localizedDescription with
    | none => rfl
    | some d =>
      by_cases hde : d = ""
      · subst hde
        simp [jsToLower_empty, jsIncludes_empty_string h]
      · simp [hde]

theorem specQueryMatch_of_blank (query : String) (app : AppRecord)
    (h : jsTrim (jsToLower query) = "") : specQueryMatch query app = true := by
  unfold specQueryMatch
  rw [h]
  simp [jsIncludes_empty_sub]

theorem versionItemsFrom_length (vs : List VersionRecord) :
    ∀ i, (versionItemsFrom i vs).length = vs.length := by
  induction vs with
  | nil => intro i; rfl
  | cons v rest ih => intro i; simp [versionItemsFrom, ih]

theorem versionItemsFrom_getD (vs : List VersionRecord) :
    ∀ i j, j < vs.length →
      (versionItemsFrom i vs).getD j default = versionItemAt (i + j) (vs.getD j default) := by
  induction vs with
  | nil => intro i j hj; simp at hj
  | cons v rest ih =>
    intro i j hj
    cases j with
    | zero => rfl
    | succ j =>
      have hj' : j < rest.length := by simpa using hj
      have hstep : i + 1 + j = i + (j + 1) := by omega
      simpa [versionItemsFrom, List.getD, hstep] using ih (i + 1) j hj'

theorem log1024Aux_bounds :
    ∀ fuel n, 0 < n → n ≤ fuel →
      1024 ^ log1024Aux fuel n ≤ n ∧ n < 1024 ^ (log1024Aux fuel n + 1) := by
  intro fuel
  induction fuel with
  | zero => intro n h0 hle; omega
  | succ fuel ih =>
    intro n h0 hle
    by_cases hlt : n < 1024
    · simp [log1024Aux, hlt, h0]
      omega
    · have hn : 1024 ≤ n := le_of_not_lt hlt
      have hq0 : 0 < n / 1024 := Nat.div_pos hn (by norm_num)
      have hqf : n / 1024 ≤ fuel := by
        have := Nat.div_lt_self h0 (show 1 < 1024 by norm_num)
        omega
      obtain ⟨h1, h2⟩ := ih (n / 1024) hq0 hqf
      have hlow : 1024 ^ (1 + log1024Aux fuel (n / 1024)) ≤ n := by
        have e : (1024:Nat) ^ (1 + log1024Aux fuel (n / 1024)) =
            1024 * 1024 ^ log1024Aux fuel (n / 1024) := by
          rw [pow_add, pow_one]
        calc (1024:Nat) ^ (1 + log1024Aux fuel (n / 1024))
            = 1024 * 1024 ^ log1024Aux fuel (n / 1024) := e
          _ ≤ 1024 * (n / 1024) := Nat.mul_le_mul_left _ h1
          _ = n / 1024 * 1024 := Nat.mul_comm _ _
          _ ≤ n := Nat.div_mul_le_self n 1024
      have hhigh : n < 1024 ^ (1 + log1024Aux fuel (n / 1024) + 1) := by
        have hmod := Nat.div_add_mod n 1024
        have hmlt : n % 1024 < 1024 := Nat.mod_lt n (by norm_num)
        have step : n < 1024 * (n / 1024 + 1) := by
          have e : 1024 * (n / 1024 + 1) = 1024 * (n / 1024) + 1024 := by ring
          omega
        have h2' : n / 1024 + 1 ≤ 1024 ^ (log1024Aux fuel (n / 1024) + 1) := h2
        calc n < 1024 * (n / 1024 + 1) := step
          _ ≤ 1024 * 1024 ^ (log1024Aux fuel (n / 1024) + 1) := Nat.mul_le_mul_left _ h2'
          _ = 1024 ^ (1 + log1024Aux fuel (n / 1024) + 1) := by ring
      simp only [log1024Aux, hlt, if_false]
      exact ⟨hlow, hhigh⟩

theorem log1024_bounds (n : Nat) (h : 0 < n) :
    1024 ^ log1024 n ≤ n ∧ n < 1024 ^ (log1024 n + 1) :=
  log1024Aux_bounds n n h le_rfl

theorem byteMagnitude_pos (n : Nat) : 0 < byteMagnitude n :=
  Nat.pos_pow_of_pos _ (by norm_num)

theorem byteTenths_floor (n : Nat) :
    2 * byteMagnitude n * byteTenths n ≤ 20 * n + byteMagnitude n ∧
    20 * n + byteMagnitude n < 2 * byteMagnitude n * (byteTenths n + 1) := by
  have hd : 0 < 2 * byteMagnitude n := by
    have := byteMagnitude_pos n
    omega
  constructor
  · calc 2 * byteMagnitude n * byteTenths n
        = byteTenths n * (2 * byteMagnitude n) := Nat.mul_comm _ _
      _ ≤ 20 * n + byteMagnitude n := Nat.div_mul_le_self _ _
  · have hmod := Nat.div_add_mod (20 * n + byteMagnitude n) (2 * byteMagnitude n)
    have hmlt : (20 * n + byteMagnitude n) % (2 * byteMagnitude n) < 2 * byteMagnitude n :=
      Nat.mod_lt _ hd
    have e : 2 * byteMagnitude n * (byteTenths n + 1) =
        2 * byteMagnitude n * byteTenths n + 2 * byteMagnitude n := by ring
    unfold byteTenths at *
    omega

/-! ## Claim theorems -/

/-- C1: For every loaded feed and every query string, the search filter of
`handleSearch` returns exactly the apps for which the lowercased, trimmed
query is a substring of at least one of name, developer name, subtitle, or
localized description (comparing case-insensitively), and the returned
apps appear in original feed order. -/
theorem c1_search_filter (feed : Feed) (query : String) :
    ∃ res, handleSearch_v2 (some feed) query = some res ∧
      res = feed.apps.filter (specQueryMatch query) ∧
      List.Sublist res feed.apps ∧
      ∀ a, a ∈ res ↔ a ∈ feed.apps ∧ specQueryMatch query a = true := by
  by_cases h : jsTrim (jsToLower query) = ""
  · refine ⟨feed.apps, ?_, ?_, List.Sublist.refl _, ?_⟩
    · simp [handleSearch_v2, h]
    · exact (List.filter_eq_self.mpr (fun a _ => specQueryMatch_of_blank query a h)).symm
    · intro a
      simp [specQueryMatch_of_blank query a h]
  · have hfe : feed.apps.filter (appMatchesQuery (jsTrim (jsToLower query))) =
        feed.apps.filter (specQueryMatch query) :=
      List.filter_congr (fun a _ => appMatchesQuery_eq_spec query a h)
    refine ⟨feed.apps.filter (specQueryMatch query), ?_, rfl, List.filter_sublist _, ?_⟩
    · simp [handleSearch_v2, h, hfe]
    · intro a
      simp [List.mem_filter]

/-- C2 counterexample: opening the detail view of a 7-version app renders
7 version items immediately, not the 3 the claim's page-size-3 pagination
would show. -/
theorem c2_counterexample :
    (mkDetailView sampleApp7).versionItems.length = 7 ∧ (7 : Nat) ≠ 3 := by
  decide

/-- C2 amended: the detail view has no version pagination at all — for
every app, `openAppDetail` renders every version at once (a 7-version app
shows all 7 from the start), and no show-more / show-less control exists
in the code. -/
theorem c2_all_versions_shown (app : AppRecord) :
    (mkDetailView app).versionItems.length = app.versions.length := by
  simp [mkDetailView, versionItemsFrom_length]

/-- C3: if the feed fetch succeeds with an OK status but the body, after
trimming leading whitespace, begins with an HTML doctype (`<!`) or root
tag (`<html`) marker, the loader fails with the feed-format error, the
result does not depend on the JSON parser (no JSON parsing is consulted),
and no catalog is produced from the response. -/
theorem c3_html_guard (resp : FeedResponse) (p₁ p₂ : String → Option Feed)
    (hok : resp.ok = true)
    (hhtml : jsStartsWith (jsTrimStart resp.body) "<!" = true ∨
             jsStartsWith (jsTrimStart resp.body) "<html" = true) :
    loadFeed resp p₁ = Except.error LoadError.htmlFallback ∧
    loadFeed resp p₁ = loadFeed resp p₂ ∧
    ∀ feed, loadFeed resp p₁ ≠ Except.ok feed := by
  have hsniff : looksLikeHTML resp.body = true := by
    unfold looksLikeHTML
    rcases hhtml with h | h <;> simp [h]
  refine ⟨?_, ?_, ?_⟩ <;> simp [loadFeed, hok, hsniff]

/-- C3 witness: a concrete OK response whose body is an HTML fallback page
is rejected as `htmlFallback` no matter what the JSON parser would say. -/
theorem c3_html_guard_witness :
    ((FeedResponse.mk true 200 "<!DOCTYPE html><html></html>").ok = true ∧
      (jsStartsWith (jsTrimStart (FeedResponse.mk true 200 "<!DOCTYPE html><html></html>").body) "<!" = true ∨
       jsStartsWith (jsTrimStart (FeedResponse.mk true 200 "<!DOCTYPE html><html></html>").body) "<html" = true)) ∧
    (loadFeed (FeedResponse.mk true 200 "<!DOCTYPE html><html></html>") (fun _ => none) =
        Except.error LoadError.htmlFallback ∧
      loadFeed (FeedResponse.mk true 200 "<!DOCTYPE html><html></html>") (fun _ => none) =
        loadFeed (FeedResponse.mk true 200 "<!DOCTYPE html><html></html>") (fun _ => some sampleFeed) ∧
      ∀ feed, loadFeed (FeedResponse.mk true 200 "<!DOCTYPE html><html></html>") (fun _ => none) ≠
        Except.ok feed) :=
  ⟨⟨rfl, Or.inl (by decide)⟩,
    c3_html_guard (FeedResponse.mk true 200 "<!DOCTYPE html><html></html>")
      (fun _ => none) (fun _ => some sampleFeed) rfl (Or.inl (by decide))⟩

/-- C4 counterexample: `formatBytes(1048576)` is `"1 MB"`, not the claimed
`"1.0 MB"` — `parseFloat` drops the trailing `.0` produced by
`toFixed(1)`. -/
theorem c4_counterexample :
    formatBytes_v1 1048576 = "1 MB" ∧ formatBytes_v2 1048576 = "1 MB" ∧
    ("1 MB" : String) ≠ "1.0 MB" := by
  decide

/-- C4 amended: `formatBytes` returns `"0 B"` for 0, `"1.5 KB"` for 1536
and `"1 MB"` for 1048576; in general, for nonzero input the result is the
value rounded to 1 decimal place with a trailing `.0` dropped (the
`parseFloat` step), concatenated with the unit from `[B, KB, MB, GB]` at
index `floor(log n / log 1024)` (indices past GB read as `undefined`).
The two inequality pairs certify that the index is the exact integer
logarithm and that the rendered tenths value is the half-up rounding of
`10 * n / 1024^i`. -/
theorem c4_formatBytes_amended :
    formatBytes_v2 0 = "0 B" ∧ formatBytes_v2 1536 = "1.5 KB" ∧
    formatBytes_v2 1048576 = "1 MB" ∧
    ∀ n, 0 < n →
      formatBytes_v2 n =
        jsNumToString (byteTenths n) ++ " " ++
          (["B", "KB", "MB", "GB"] : List String).getD (log1024 n) "undefined" ∧
      byteMagnitude n ≤ n ∧ n < 1024 * byteMagnitude n ∧
      2 * byteMagnitude n * byteTenths n ≤ 20 * n + byteMagnitude n ∧
      20 * n + byteMagnitude n < 2 * byteMagnitude n * (byteTenths n + 1) := by
  refine ⟨by decide, by decide, by decide, ?_⟩
  intro n hn
  obtain ⟨hlow, hhigh⟩ := log1024_bounds n hn
  obtain ⟨hf1, hf2⟩ := byteTenths_floor n
  refine ⟨?_, hlow, ?_, hf1, hf2⟩
  · have hne : n ≠ 0 := Nat.pos_iff_ne_zero.mp hn
    simp [formatBytes_v2, hne, byteTenths, byteMagnitude]
  · have e : (1024 : Nat) ^ (log1024 n + 1) = 1024 * byteMagnitude n := by
      rw [byteMagnitude, pow_succ, Nat.mul_comm]
    omega

/-- C4 witness: the general decomposition of the amended claim at the
concrete input 1536. -/
theorem c4_amended_witness :
    0 < 1536 ∧
    (formatBytes_v2 1536 =
        jsNumToString (byteTenths 1536) ++ " " ++
          (["B", "KB", "MB", "GB"] : List String).getD (log1024 1536) "undefined" ∧
      byteMagnitude 1536 ≤ 1536 ∧ 1536 < 1024 * byteMagnitude 1536 ∧
      2 * byteMagnitude 1536 * byteTenths 1536 ≤ 20 * 1536 + byteMagnitude 1536 ∧
      20 * 1536 + byteMagnitude 1536 < 2 * byteMagnitude 1536 * (byteTenths 1536 + 1)) :=
  ⟨by decide, c4_formatBytes_amended.2.2.2 1536 (by decide)⟩

/-- C5 (code bug): the claim says `formatDate` returns unparseable input
unchanged, which is what the source's `catch { return dateStr }` intends;
but `new Date` never throws in JavaScript and `toLocaleDateString`
stringifies an Invalid Date as `"Invalid Date"`, so the catch branch is
dead and `formatDate("not-a-date")` evaluates to `"Invalid Date"` in both
revisions, not to `"not-a-date"`. -/
theorem c5_formatDate_invalid :
    formatDate_v1 "not-a-date" = "Invalid Date" ∧
    formatDate_v2 "not-a-date" = "Invalid Date" ∧
    ("Invalid Date" : String) ≠ "not-a-date" := by
  decide

/-- C6: the renderers never re-sort the versions array — the card's badge
and displayed size and the detail view's download link are computed from
element 0 alone (the card view is unchanged by deleting every later
version), the rendered version list has one item per version in the same
order, and the `(Latest)` annotation is attached exactly to the item at
index 0. -/
theorem c6_latest_first (app : AppRecord) (v0 : VersionRecord) (rest : List VersionRecord)
    (h : app.versions = v0 :: rest) :
    renderAppCard_v2 app = renderAppCard_v2 { app with versions := [v0] } ∧
    (renderAppCard_v2 app).sizeText = formatBytes_v2 v0.size ∧
    (renderAppCard_v2 app).versionBadge =
      (if v0.version = "" then none else some ("v" ++ v0.version)) ∧
    (mkDetailView app).downloadHref = jsTruthyOpt v0.downloadURL ∧
    (mkDetailView app).versionItems.length = app.versions.length ∧
    (∀ j, j < app.versions.length →
      (mkDetailView app).versionItems.getD j default =
        versionItemAt j (app.versions.getD j default)) ∧
    (∀ j, j < app.versions.length →
      ((mkDetailView app).versionItems.getD j default).versionLabel =
        "v" ++ (app.versions.getD j default).version ++
          (if j = 0 then " (Latest)" else "")) := by
  refine ⟨?_, ?_, ?_, ?_, ?_, ?_, ?_⟩
  · simp [renderAppCard_v2, h, cardSubtitle]
  · simp [renderAppCard_v2, h]
  · simp [renderAppCard_v2, h]
  · simp [mkDetailView, h]
  · simp [mkDetailView, versionItemsFrom_length]
  · intro j hj
    have hg := versionItemsFrom_getD app.versions 0 j hj
    simp only [Nat.zero_add] at hg
    show (versionItemsFrom 0 app.versions).getD j default =
      versionItemAt j (app.versions.getD j default)
    exact hg
  · intro j hj
    have hg := versionItemsFrom_getD app.versions 0 j hj
    simp only [Nat.zero_add] at hg
    show ((versionItemsFrom 0 app.versions).getD j default).versionLabel =
      "v" ++ (app.versions.getD j default).version ++ (if j = 0 then " (Latest)" else "")
    rw [hg]
    rfl

/-- C6 witness: the latest-first rendering facts at a concrete two-version
app. -/
theorem c6_latest_first_witness :
    sampleApp2.versions = mkSampleVersion 1 :: [mkSampleVersion 0] ∧
    (renderAppCard_v2 sampleApp2 =
        renderAppCard_v2 { sampleApp2 with versions := [mkSampleVersion 1] } ∧
      (renderAppCard_v2 sampleApp2).sizeText = formatBytes_v2 (mkSampleVersion 1).size ∧
      (renderAppCard_v2 sampleApp2).versionBadge =
        (if (mkSampleVersion 1).version = "" then none
         else some ("v" ++ (mkSampleVersion 1).version)) ∧
      (mkDetailView sampleApp2).downloadHref = jsTruthyOpt (mkSampleVersion 1).downloadURL ∧
      (mkDetailView sampleApp2).versionItems.length = sampleApp2.versions.length ∧
      (∀ j, j < sampleApp2.versions.length →
        (mkDetailView sampleApp2).versionItems.getD j default =
          versionItemAt j (sampleApp2.versions.getD j default)) ∧
      (∀ j, j < sampleApp2.versions.length →
        ((mkDetailView sampleApp2).versionItems.getD j default).versionLabel =
          "v" ++ (sampleApp2.versions.getD j default).version ++
            (if j = 0 then " (Latest)" else ""))) :=
  ⟨rfl, c6_latest_first sampleApp2 (mkSampleVersion 1) [mkSampleVersion 0] rfl⟩

/-- C7: opening the detail view for a bundle identifier that is not in the
loaded catalog — or before any feed is loaded — is a benign no-op: the
page state (modal visibility, modal content, body overflow) is returned
unchanged. -/
theorem c7_lookup_miss (src : Option Feed) (bundleId : String) (st : UIState)
    (h : ∀ feed, src = some feed → ∀ a ∈ feed.apps, a.bundleIdentifier ≠ bundleId) :
    openAppDetail_v2 src bundleId st = st := by
  cases src with
  | none => rfl
  | some feed =>
    have hf : feed.apps.find? (fun a => a.bundleIdentifier == bundleId) = none :=
      List.find?_eq_none.mpr (fun a ha => by simpa using h feed rfl a ha)
    simp [openAppDetail_v2, hf]

/-- C7 witness: a lookup miss on the concrete sample feed leaves a closed
modal closed. -/
theorem c7_lookup_miss_witness :
    openAppDetail_v2 (some sampleFeed) "com.example.missing"
      (UIState.mk false none false) = UIState.mk false none false :=
  c7_lookup_miss (some sampleFeed) "com.example.missing" (UIState.mk false none false)
    (by intro feed hfeed; cases hfeed; decide)

/-- C8: searching with an empty or whitespace-only query (one whose
lowercased, trimmed form is empty) returns the full app list in original
feed order — the identity on the catalog. -/
theorem c8_blank_query (feed : Feed) (query : String)
    (h : jsTrim (jsToLower query) = "") :
    handleSearch_v2 (some feed) query = some feed.apps := by
  simp [handleSearch_v2, h]

/-- C8 witness: a whitespace-only query on the concrete sample feed
returns the full catalog. -/
theorem c8_blank_query_witness :
    jsTrim (jsToLower "   ") = "" ∧
    handleSearch_v2 (some sampleFeed) "   " = some sampleFeed.apps :=
  ⟨by decide, c8_blank_query sampleFeed "   " (by decide)⟩

/-- C9: for every feed URL, each revision's deep-link generator emits
exactly one URI per supported installer (7 in revision 1, 3 in revision 2,
with pairwise distinct installer names), and each emitted URI is the
installer's fixed template applied to the feed URL — embedding it either
percent-encoded as a query parameter or verbatim as a raw path segment. -/
theorem c9_sideload_links (url : String) :
    (getSideloadLinks_v1 url).map (fun l => (l.name, l.url)) =
      installerTemplates_v1.map (applyTemplate url) ∧
    (getSideloadLinks_v2 url).map (fun l => (l.name, l.url)) =
      installerTemplates_v2.map (applyTemplate url) ∧
    ((getSideloadLinks_v1 url).map SideloadLinkV1.name).Nodup ∧
    ((getSideloadLinks_v2 url).map SideloadLinkV2.name).Nodup ∧
    (getSideloadLinks_v1 url).length = 7 ∧
    (getSideloadLinks_v2 url).length = 3 := by
  refine ⟨rfl, rfl, ?_, ?_, rfl, rfl⟩
  · have e : (getSideloadLinks_v1 url).map SideloadLinkV1.name =
        ["AltStore", "SideStore", "Feather", "TrollApps", "ESign", "GBox", "Scarlet"] := rfl
    rw [e]
    decide
  · have e : (getSideloadLinks_v2 url).map SideloadLinkV2.name =
        ["AltStore", "SideStore", "Feather"] := rfl
    rw [e]
    decide

/-- C10: the two revisions of the script define extensionally equal
`formatBytes`, `formatDate` and search-filter (`handleSearch`) functions:
on every input the first revision's function returns the same result as
the second revision's. -/
theorem c10_revisions_agree :
    (∀ n : Nat, formatBytes_v1 n = formatBytes_v2 n) ∧
    (∀ s : String, formatDate_v1 s = formatDate_v2 s) ∧
    (∀ (src : Option Feed) (q : String), handleSearch_v1 src q = handleSearch_v2 src q) :=
  ⟨fun _ => rfl, fun _ => rfl, fun _ _ => rfl⟩

end SideloadCatalog
